import Mathlib

/-!
Shallow embedding of the `esky` auto-update runtime (`src/esky/__init__.py`,
class `Esky`) together with proofs about its manifest handling, directory
locking, cleanup, uninstall, privilege escalation and path validation.

Conventions of the embedding:
* Python exceptions become the explicit error type `PyErr`; fallible code
  returns `Except PyErr _`, or a pair `(Except PyErr _) × State` when the
  operation may mutate state before raising.
* The POSIX branches of the code are modelled (the source imports `fcntl`
  when `sys.platform != "win32"`); path strings use POSIX semantics, and
  `normpath`, `dirname`, `pjoin`, `isabs` below are direct translations of
  the CPython `posixpath` implementations used by the source.
* Code of this repository that lives outside `src/` (the helpers imported
  from `esky.util`, and the `FSTransaction` engine from `esky.fstransact`)
  is modelled from the spec; every such definition carries a doc comment
  starting with `Modelled from the spec:`.
* The application directory is tracked one level deep: an `AppState` holds
  the list of entries of the directory, and each version-directory entry
  records the esky control files it contains.
-/

namespace Esky

/-- Python exception kinds that the embedded code can raise.  `environmentError`
carries the `errno`; `EnvironmentError`/`IOError`/`OSError` are identified, as
in Python 2.6+ where `IOError` and `OSError` are both `EnvironmentError`s. -/
inductive PyErr where
  | assertionError
  | nameError
  | typeError
  | eskyLockedError
  | versionLockedError
  | noVersionFinderError
  | eskyBrokenError
  | environmentError (errno : Nat)
deriving DecidableEq, Repr

deriving instance DecidableEq for Except

/-- `errno.EACCES` on Linux. -/
def EACCES : Nat := 13
/-- `errno.ENOENT` on Linux. -/
def ENOENT : Nat := 2
/-- `errno.ENOTEMPTY` on Linux. -/
def ENOTEMPTY : Nat := 39

/-- Split a character list at every occurrence of `sep`, like Python
`str.split(sep)` for a one-character separator (structural, so that the
kernel can evaluate it). -/
def splitOnCharAux (sep : Char) : List Char → List Char → List (List Char)
  | [], acc => [acc.reverse]
  | c :: rest, acc =>
    if c = sep then acc.reverse :: splitOnCharAux sep rest []
    else splitOnCharAux sep rest (c :: acc)

/-- Python `str.split(sep)` for a one-character separator. -/
def splitOnChar (sep : Char) (s : String) : List String :=
  (splitOnCharAux sep s.toList []).map String.mk

/-- Join with a separator, like Python `sep.join(parts)`. -/
def joinSep (sep : String) : List String → String
  | [] => ""
  | [x] => x
  | x :: xs => x ++ sep ++ joinSep sep xs

/-- Python `str.startswith`. -/
def strStarts (s pre : String) : Bool := pre.toList.isPrefixOf s.toList

/-- Python `str.endswith`. -/
def strEnds (s suf : String) : Bool := suf.toList.isSuffixOf s.toList

/-- Python `pat in s` substring test. -/
def hasSubstrAux (pat : List Char) : List Char → Bool
  | [] => pat.isEmpty
  | c :: rest => pat.isPrefixOf (c :: rest) || hasSubstrAux pat rest

/-- Python `pat in s` substring test. -/
def hasSubstr (s pat : String) : Bool := hasSubstrAux pat.toList s.toList

/-- Python `str.strip()` (for the ASCII whitespace that occurs in manifest
files). -/
def pystrip (s : String) : String :=
  String.mk (((s.toList.dropWhile Char.isWhitespace).reverse.dropWhile
    Char.isWhitespace).reverse)

/-- Python `int(s)` as used on version components: all-digit strings parse,
anything else does not. -/
def pyToNat (s : String) : Option Nat :=
  let cs := s.toList
  if cs ≠ [] ∧ cs.all Char.isDigit then
    some (cs.foldl (fun acc c => acc * 10 + (c.toNat - 48)) 0)
  else none

/-- `posixpath.isabs`: a path is absolute iff it starts with a slash. -/
def isabs (p : String) : Bool := strStarts p "/"

/-- `posixpath.join` for two components: if the second is absolute it wins;
otherwise it is appended with a separating slash unless one is present. -/
def pjoin (a b : String) : String :=
  if isabs b then b
  else if a = "" || strEnds a "/" then a ++ b
  else a ++ "/" ++ b

/-- Component loop of `posixpath.normpath`: drop empty and `.` components,
resolve `..` against the accumulated prefix exactly as CPython does. -/
def npFold (initSlash : Bool) : List String → List String → List String
  | acc, [] => acc
  | acc, c :: rest =>
    if c = "" || c = "." then npFold initSlash acc rest
    else if c ≠ ".." then npFold initSlash (acc ++ [c]) rest
    else
      match acc.getLast? with
      | some prev =>
        if prev = ".." then npFold initSlash (acc ++ [".."]) rest
        else npFold initSlash acc.dropLast rest
      | none =>
        if initSlash then npFold initSlash acc rest
        else npFold initSlash [".."] rest

/-- `posixpath.normpath`.  Note `normpath "" = "."`, which matters below:
a blank manifest line normalises to `"."`. -/
def normpath (p : String) : String :=
  if p = "" then "."
  else
    let slashes : Nat :=
      if strStarts p "/" then
        if strStarts p "//" && ! strStarts p "///" then 2 else 1
      else 0
    let comps := npFold (strStarts p "/") [] (splitOnChar '/' p)
    let out := String.mk (List.replicate slashes '/') ++ joinSep "/" comps
    if out = "" then "." else out

/-- Index of the last `'/'` in a character list, if any. -/
def lastSlashIdx : List Char → Option Nat
  | [] => none
  | c :: rest =>
    match lastSlashIdx rest with
    | some i => some (i + 1)
    | none => if c = '/' then some 0 else none

/-- Drop trailing slashes. -/
def rstripSlash (cs : List Char) : List Char :=
  (cs.reverse.dropWhile (fun c => c = '/')).reverse

/-- `posixpath.dirname`: everything before the last slash, with trailing
slashes stripped unless the result consists solely of slashes. -/
def dirname (p : String) : String :=
  let cs := p.toList
  let i : Nat :=
    match lastSlashIdx cs with
    | some j => j + 1
    | none => 0
  let head := cs.take i
  if head ≠ [] ∧ head.any (fun c => c ≠ '/') then String.mk (rstripSlash head)
  else String.mk head

/-- Modelled from the spec: `esky.util.join_app_version` is not under `src/`;
§6 gives the version-directory name grammar `<app>-<version>.<platform>`. -/
def joinAppVersion (name version platform : String) : String :=
  name ++ "-" ++ version ++ "." ++ platform

/-- Modelled from the spec: `esky.util.split_app_version` is not under `src/`;
§6 gives the grammar `<app>-<version>.<platform>` and demands that ambiguous
names be rejected rather than guessed.  The app name is taken up to the first
dash and the platform after the last dot of the remainder; a name without a
dash, or with an empty app/version/platform part, does not parse. -/
def splitAppVersion (nm : String) : Option (String × String × String) :=
  match splitOnChar '-' nm with
  | [] => none
  | [_] => none
  | app :: rest =>
    let vp := joinSep "-" rest
    match (splitOnChar '.' vp).reverse with
    | [] => none
    | [_] => none
    | plat :: revVer =>
      let ver := joinSep "." revVer.reverse
      if app = "" || ver = "" || plat = "" then none
      else some (app, ver, plat)

/-- Modelled from the spec: `esky.util.parse_version` is not under `src/`;
§3 says version strings parse into comparable tuples of dotted numeric
components.  Non-numeric components are taken as `0`. -/
def parseVersion (v : String) : List Nat :=
  (splitOnChar '.' v).map (fun c => (pyToNat c).getD 0)

/-- Lexicographic order on parsed versions, mirroring Python tuple `<`
(a strict prefix is smaller). -/
def verLt : List Nat → List Nat → Bool
  | [], [] => false
  | [], _ :: _ => true
  | _ :: _, [] => false
  | a :: as, b :: bs => if a < b then true else if b < a then false else verLt as bs

/-- One entry of the application directory.  A plain bootstrap file is an
entry with all control fields at their defaults; a version directory records
the esky control files it contains:
* `manifest` — the lines of its `esky-bootstrap.txt`, if that file exists
  (as Python would iterate them, line terminators stripped);
* `oldManifest` — whether `esky-bootstrap-old.txt` exists;
* `bootstrapFiles` — the files inside `esky-bootstrap/`, if that directory
  exists (i.e. the version is only partially installed);
* `overwriteFiles` — the files inside `esky-overwrite/`, if that directory
  exists;
* `hasLockfile` — whether `esky-lockfile.txt` exists;
* `lockHeld` — whether another process holds an exclusive `flock` on
  `esky-lockfile.txt` (the version is in use). -/
structure Entry where
  name : String
  manifest : Option (List String) := none
  oldManifest : Bool := false
  bootstrapFiles : Option (List String) := none
  overwriteFiles : Option (List String) := none
  hasLockfile : Bool := true
  lockHeld : Bool := false
deriving DecidableEq, Repr

/-- State of an `Esky` instance and of its application directory, tracked one
level deep.  `version` is `self.version` (the best version found at
`reinitialize` time) and `activeVersion` is `self.active_version` (the bare
version string parsed from the executable path, or `none`).  The version
finder is modelled as an oracle: `finderLocal` is its `has_version` table,
`finderRemote` the versions `fetch_version` could download, and
`stagedPayloads` maps a payload location to the version-directory entry that
renaming it into the application directory would create. -/
structure AppState where
  appdir : String := "/app"
  name : String
  platform : String := "plat"
  version : String := ""
  activeVersion : Option String := none
  entries : List Entry := []
  sysPath : List String := []
  hasFinder : Bool := false
  finderLocal : List (String × String) := []
  finderRemote : List (String × String) := []
  stagedPayloads : List (String × Entry) := []
deriving DecidableEq, Repr

/-- Look up the application-directory entry with the given name. -/
def findEntry (s : AppState) (nm : String) : Option Entry :=
  s.entries.find? (fun e => e.name = nm)

/-- `os.path.exists` for a path relative to the application directory, at the
one-level depth the model tracks. -/
def existsPath (s : AppState) (nm : String) : Bool :=
  s.entries.any (fun e => e.name = nm)

/-- Replace the entry with the given name. -/
def setEntry (s : AppState) (nm : String) (e' : Entry) : AppState :=
  { s with entries := s.entries.map (fun e => if e.name = nm then e' else e) }

/-- Python `set` of strings, represented as a duplicate-free list in
insertion order; only membership and extensional content matter to the
source, which this representation preserves while staying evaluable by the
kernel.  `ssInsert` is `set.add`, `ssUnion` is `set.update`, `ssDiff` is
set difference. -/
def ssInsert (s : List String) (x : String) : List String :=
  if s.contains x then s else s ++ [x]

/-- Python `set.update` (union, keeping the left operand's order first). -/
def ssUnion (a b : List String) : List String := b.foldl ssInsert a

/-- Python set difference. -/
def ssDiff (a b : List String) : List String := a.filter (fun x => ! b.contains x)

/-- Line loop of `Esky._version_manifest` (src/esky/__init__.py lines
712-719): each line is stripped and normalised, absolute paths and paths
starting with `..` are rejected by `assert`, and surviving names are added
to the set. -/
def versionManifestLines : List String → List String → Except PyErr (List String)
  | [], acc => .ok acc
  | ln :: rest, acc =>
    let nm := normpath (pystrip ln)
    if isabs nm then .error .assertionError
    else if strStarts nm ".." then .error .assertionError
    else versionManifestLines rest (ssInsert acc nm)

/-- `Esky._version_manifest` (src/esky/__init__.py lines 703-722): read
`<vdir>/esky-bootstrap.txt`; a missing file (`IOError`) yields the empty
set. -/
def versionManifest (s : AppState) (vdir : String) : Except PyErr (List String) :=
  match findEntry s vdir with
  | none => .ok []
  | some e =>
    match e.manifest with
    | none => .ok []
    | some lines => versionManifestLines lines []

/-- The manifest of a version directory when its load succeeds, else empty;
used to phrase spec-side set expressions totally. -/
def manifestD (s : AppState) (vdir : String) : List String :=
  match versionManifest s vdir with
  | .ok m => m
  | .error _ => []

/-- Keep-set loop of `Esky._cleanup_bootstrap_env` (src/esky/__init__.py
lines 686-695): walk the application directory, skip the version being
removed, skip entries of other applications, skip entries whose parsed
version is strictly older, and union the manifests of the rest. -/
def keepFoldM (s : AppState) (targetName : String) (pv : List Nat) :
    List Entry → List String → Except PyErr (List String)
  | [], acc => .ok acc
  | e :: rest, acc =>
    if e.name = targetName then keepFoldM s targetName pv rest acc
    else
      match splitAppVersion e.name with
      | none => keepFoldM s targetName pv rest acc
      | some (app, ver, _) =>
        if app ≠ s.name then keepFoldM s targetName pv rest acc
        else if verLt (parseVersion ver) pv then keepFoldM s targetName pv rest acc
        else
          match versionManifest s e.name with
          | .error err => .error err
          | .ok m => keepFoldM s targetName pv rest (ssUnion acc m)

/-- `Esky._cleanup_bootstrap_env` (src/esky/__init__.py lines 682-701):
the set of bootstrap files the reclaim transaction removes — the target's
manifest minus the keep set, restricted to files that exist. -/
def cleanupBootstrapEnv (s : AppState) (version : String) :
    Except PyErr (List String) :=
  let targetName := joinAppVersion s.name version s.platform
  match keepFoldM s targetName (parseVersion version) s.entries [] with
  | .error err => .error err
  | .ok keep =>
    match versionManifest s targetName with
    | .error err => .error err
    | .ok tm => .ok ((ssDiff tm keep).filter (fun nm => existsPath s nm))

/-- Whether an `Except` result is a success. -/
def isOkB {α : Type} : Except PyErr α → Bool
  | .ok _ => true
  | .error _ => false

/-- Whether an entry contributes to the keep set of
`_cleanup_bootstrap_env`, phrased as in the spec (§4.4): any *other* entry
of the same application whose parsed version is greater than or equal to the
one being removed. -/
def keepsFor (s : AppState) (targetName : String) (pv : List Nat) (e : Entry) : Bool :=
  e.name ≠ targetName &&
    match splitAppVersion e.name with
    | none => false
    | some (app, ver, _) => app = s.name && ! verLt (parseVersion ver) pv

/-- Spec-side keep set (§4.4): union of the manifests of every qualifying
entry, folded from the given accumulator. -/
def keepSetFrom (s : AppState) (targetName : String) (pv : List Nat)
    (acc : List String) (l : List Entry) : List String :=
  l.foldl (fun a e => if keepsFor s targetName pv e then ssUnion a (manifestD s e.name) else a) acc

/-- Spec-side keep set (§4.4): union of the manifests of every qualifying
entry. -/
def keepSet (s : AppState) (targetName : String) (pv : List Nat) (l : List Entry) : List String :=
  keepSetFrom s targetName pv [] l

/-- Spec-side removable set (§4.4, §4.6): the target's manifest minus the
union of the manifests of every other equal-or-newer version of the same
application, restricted to files that physically exist. -/
def specRemovable (s : AppState) (version : String) : List String :=
  let targetName := joinAppVersion s.name version s.platform
  (ssDiff (manifestD s targetName) (keepSet s targetName (parseVersion version) s.entries)).filter
    (fun nm => existsPath s nm)

/-- All manifest loads that `_cleanup_bootstrap_env` performs succeed: the
loads of qualifying keep-set entries and the load of the target's
manifest. -/
def loadsOk (s : AppState) (version : String) : Bool :=
  let targetName := joinAppVersion s.name version s.platform
  let pv := parseVersion version
  (s.entries.all fun e => ! keepsFor s targetName pv e || isOkB (versionManifest s e.name)) &&
    isOkB (versionManifest s targetName)

/-- Commit of the reclaim transaction: the recorded `trn.remove` operations
delete the listed application-directory entries.  (Modelled from the spec:
`esky.fstransact.FSTransaction` is not under `src/`; §4.3 says recorded
removes are applied at `commit()`.) -/
def applyRemoves (s : AppState) (rem : List String) : AppState :=
  { s with entries := s.entries.filter (fun e => ! rem.contains e.name) }

/-- `Esky.uninstall_version` (src/esky/__init__.py lines 629-680), POSIX
branch.  Returns the outcome together with the state after the call, which
also reflects mutations made before an exception was raised.  Control flow
of the source:
1. build the target name and `assert` it resolves directly inside the
   application directory;
2. `self.lock()` — the directory lock is modelled separately (`lockAcquire`
   below) and taken to succeed here;
3. return silently if the target directory does not exist;
4. run `_cleanup_bootstrap_env` inside an `FSTransaction` and commit it
   (an `AssertionError` from a manifest load aborts the transaction and
   propagates);
5. only then test the version's `esky-lockfile.txt` with a non-blocking
   exclusive `flock`; failure raises `VersionLockedError` — the committed
   reclaim of step 4 is not rolled back;
6. otherwise rename `esky-bootstrap.txt` to `esky-bootstrap-old.txt`. -/
def uninstallVersion (s : AppState) (version : String) :
    Except PyErr Unit × AppState :=
  let targetName := joinAppVersion s.name version s.platform
  if dirname (pjoin s.appdir targetName) ≠ s.appdir then (.error .assertionError, s)
  else
    match findEntry s targetName with
    | none => (.ok (), s)
    | some e =>
      match cleanupBootstrapEnv s version with
      | .error err => (.error err, s)
      | .ok rem =>
        let s1 := applyRemoves s rem
        if ! e.hasLockfile then (.error (.environmentError ENOENT), s1)
        else if e.lockHeld then (.error .versionLockedError, s1)
        else
          match e.manifest with
          | none => (.error (.environmentError ENOENT), s1)
          | some _ =>
            (.ok (), setEntry s1 targetName
              { e with manifest := none, oldManifest := true })

/-- Filesystem state of the `locked/` lock directory together with the
calling instance's reentrancy counter (`self._lock_count`).  `markers` maps
owner-identity marker file names to their mtimes; `dirMtime` is the mtime of
the `locked/` directory itself. -/
structure LockState where
  dirExists : Bool
  dirMtime : Nat
  markers : List (String × Nat)
  count : Int
deriving DecidableEq, Repr

/-- The newest mtime examined by the staleness check of `Esky.lock`
(src/esky/__init__.py lines 284-288): it starts from the mtime of the
`locked/` directory itself and folds in every marker's mtime. -/
def newestMtime (st : LockState) : Nat :=
  st.markers.foldl (fun b m => max b m.2) st.dirMtime

/-- Whether the owner's marker file exists inside `locked/`. -/
def markerExists (st : LockState) (myid : String) : Bool :=
  st.markers.any (fun m => m.1 = myid)

/-- `os.utime` on the owner's marker file. -/
def refreshMarker (st : LockState) (myid : String) (now : Nat) : LockState :=
  { st with markers := st.markers.map (fun m => if m.1 = myid then (m.1, now) else m) }

/-- Recursion of `Esky.lock` (src/esky/__init__.py lines 244-302), with the
retry budget `6 - num_retries` as an explicit structurally-decreasing fuel
(the source checks `num_retries > 5` and recurses with `num_retries + 1`,
which is exactly fuel 0 and fuel decrement here).  Control flow of the
source: give up when the budget is exhausted; a pre-existing own marker
means reentrant acquisition (refresh its mtime, bump the counter);
otherwise try `os.mkdir` — on success write the marker and set the counter
to 1; on `EEXIST`, break the lock with `shutil.rmtree` and retry if the
newest mtime among the directory and its markers is older than the timeout,
else raise `EskyLockedError`.  The returned state reflects mutations made
before an exception (a broken lock stays broken). -/
def lockGo (myid : String) (now timeout : Nat) :
    Nat → LockState → Except PyErr Unit × LockState
  | 0, st => (.error .eskyLockedError, st)
  | fuel + 1, st =>
    if markerExists st myid then
      (.ok (), { refreshMarker st myid now with count := st.count + 1 })
    else if ! st.dirExists then
      (.ok (), { dirExists := true, dirMtime := now, markers := [(myid, now)], count := 1 })
    else if newestMtime st + timeout < now then
      lockGo myid now timeout fuel { st with dirExists := false, markers := [] }
    else (.error .eskyLockedError, st)

/-- `Esky.lock` (src/esky/__init__.py lines 244-302): entry point of the
recursion above.  `now` is `time.time()`, `timeout` is `self.lock_timeout`
and `numRetries` the `num_retries` argument (0 at every external call
site). -/
def lockAcquire (st : LockState) (myid : String) (now timeout : Nat)
    (numRetries : Nat) : Except PyErr Unit × LockState :=
  lockGo myid now timeout (6 - numRetries) st

/-- `Esky.unlock` (src/esky/__init__.py lines 304-319): decrement the
counter; at zero, `os.unlink` the own marker (ENOENT if absent) and
`os.rmdir` the `locked/` directory (ENOTEMPTY if other markers remain). -/
def lockRelease (st : LockState) (myid : String) : Except PyErr Unit × LockState :=
  let c := st.count - 1
  if c = 0 then
    if markerExists st myid then
      let markers' := st.markers.filter (fun m => ! decide (m.1 = myid))
      if markers' = [] then (.ok (), { dirExists := false, dirMtime := st.dirMtime, markers := [], count := c })
      else (.error (.environmentError ENOTEMPTY),
        { dirExists := true, dirMtime := st.dirMtime, markers := markers', count := c })
    else (.error (.environmentError ENOENT), { st with count := c })
  else (.ok (), { st with count := c })

/-- `Esky.fetch_version` (src/esky/__init__.py lines 552-568): require a
version finder, `assert` the target name resolves directly inside the
application directory, then ask the finder for the version (`has_version`,
falling back to `fetch_version`, whose successful download makes the
version locally available).  `copy_ownership_info` only touches ownership
metadata, which the model does not track.  The finder is external (spec §6)
and modelled by the oracle tables in `AppState`. -/
def fetchVersion (s : AppState) (version : String) : Except PyErr String × AppState :=
  if ! s.hasFinder then (.error .noVersionFinderError, s)
  else
    let targetName := joinAppVersion s.name version s.platform
    if dirname (pjoin s.appdir targetName) ≠ s.appdir then (.error .assertionError, s)
    else
      match s.finderLocal.lookup version with
      | some loc => (.ok loc, s)
      | none =>
        match s.finderRemote.lookup version with
        | some loc => (.ok loc, { s with finderLocal := (version, loc) :: s.finderLocal })
        | none => (.error (.environmentError ENOENT), s)

/-- `Esky._unpack_bootstrap_env` (src/esky/__init__.py lines 601-627), POSIX
branch, as run inside the transaction of `install_version` and committed:
for every name in the version's manifest that exists inside its
`esky-bootstrap/` directory, move it into the application-directory root
(replacing an existing entry of that name), then remove the
`esky-bootstrap/` directory.  A failing manifest load aborts the
transaction, undoing its recorded moves. -/
def unpackBootstrapEnv (s : AppState) (targetName : String) : Except PyErr Unit × AppState :=
  match findEntry s targetName with
  | none => (.error (.environmentError ENOENT), s)
  | some e =>
    match versionManifest s targetName with
    | .error err => (.error err, s)
    | .ok m =>
      let moved := (e.bootstrapFiles.getD []).filter (fun nm => m.contains nm)
      let entries1 := s.entries.filter (fun x => ! moved.contains x.name)
      let entries2 := entries1.map (fun x =>
        if x.name = targetName then { x with bootstrapFiles := none } else x)
      (.ok (), { s with entries := entries2 ++ moved.map (fun nm => ({ name := nm } : Entry)) })

/-- `Esky.install_version` (src/esky/__init__.py lines 570-599): build the
target name, `assert` it resolves directly inside the application
directory, fetch the payload if the target directory is absent, take the
lock (modelled separately), rename the staged payload into place if needed,
and merge the bootstrap environment in a transaction. -/
def installVersion (s : AppState) (version : String) : Except PyErr Unit × AppState :=
  let targetName := joinAppVersion s.name version s.platform
  if dirname (pjoin s.appdir targetName) ≠ s.appdir then (.error .assertionError, s)
  else if existsPath s targetName then unpackBootstrapEnv s targetName
  else
    match fetchVersion s version with
    | (.error err, s1) => (.error err, s1)
    | (.ok _, s1) =>
      match s1.finderLocal.lookup version with
      | none => (.error .typeError, s1)
      | some src =>
        match s1.stagedPayloads.lookup src with
        | none => (.error (.environmentError ENOENT), s1)
        | some payload =>
          let s2 := { s1 with
            entries := s1.entries ++ [{ payload with name := targetName }],
            stagedPayloads := s1.stagedPayloads.filter (fun p => ! decide (p.1 = src)) }
          unpackBootstrapEnv s2 targetName

/-- `Esky._perform_overwrites` (src/esky/__init__.py lines 407-422).  The
body of the inner loop reads `oversrc` and `overdir`, names that are never
defined (the variables in scope are `ovrsrc` and `ovrdir`), so the first
file found inside `esky-overwrite/` raises `NameError`.  Walking a missing
directory yields nothing, and an empty directory is simply removed. -/
def performOverwrites (s : AppState) (vname : String) : Except PyErr Unit × AppState :=
  match findEntry s vname with
  | none => (.ok (), s)
  | some e =>
    match e.overwriteFiles with
    | none => (.ok (), s)
    | some [] => (.ok (), setEntry s vname { e with overwriteFiles := none })
    | some (_ :: _) => (.error .nameError, s)

/-- Modelled from the spec: `esky.util.get_best_version` is not under
`src/`; §4.1 says it scans the application directory, parses each entry as
a version-directory name, filters by application name and platform, and
returns the highest-ordered entry, excluding partially-installed
directories unless `includePartial`.  Per §3 an installed entry is one
whose `esky-bootstrap.txt` is present and unrenamed. -/
def getBestVersion (s : AppState) (includePartial : Bool) : Option String :=
  (s.entries.foldl (fun best e =>
    match splitAppVersion e.name with
    | none => best
    | some (app, ver, plat) =>
      if app = s.name && plat = s.platform && e.manifest.isSome &&
          (includePartial || e.bootstrapFiles.isNone) then
        match best with
        | none => some (e.name, parseVersion ver)
        | some (bn, bpv) =>
          if verLt bpv (parseVersion ver) then some (e.name, parseVersion ver)
          else some (bn, bpv)
      else best) none).map (fun b => b.1)

/-- Modelled from the spec: `esky.util.is_version_dir` is not under `src/`;
per §3 an installed version directory parses as a version name, has its
`esky-bootstrap.txt` present and unrenamed, and no `esky-bootstrap/`
subdirectory. -/
def isVersionDirE (e : Entry) : Bool :=
  (splitAppVersion e.name).isSome && e.manifest.isSome && e.bootstrapFiles.isNone

/-- Modelled from the spec: `esky.util.is_uninstalled_version_dir` is not
under `src/`; per §3 an uninstalling version directory parses as a version
name and has its manifest renamed to `esky-bootstrap-old.txt`. -/
def isUninstalledVersionDirE (e : Entry) : Bool :=
  (splitAppVersion e.name).isSome && e.oldManifest && e.manifest.isNone

/-- The backup-marker name test of `Esky.cleanup` (src/esky/__init__.py
line 395): `".old." in nm or nm.endswith(".old")`. -/
def oldMarker (nm : String) : Bool :=
  hasSubstr nm ".old." || strEnds nm ".old"

/-- `Esky._try_remove` (src/esky/__init__.py lines 424-460) at the model's
one-level depth: removing the entry succeeds silently unless its full path
is on `sys.path` or its name is in the protecting manifest (the tolerated
errnos make failures silent, so a removal never raises here). -/
def tryRemove (s : AppState) (nm : String) (prot : List String) : AppState :=
  if s.sysPath.contains (pjoin s.appdir nm) then s
  else if prot.contains nm then s
  else { s with entries := s.entries.filter (fun e => ! decide (e.name = nm)) }

/-- Main sweep of `Esky.cleanup` (src/esky/__init__.py lines 379-401) over
the `os.listdir` snapshot: entries in the protecting manifest are skipped;
an installed version directory is uninstalled (a `VersionLockedError` is
silently ignored and the directory kept, any other error propagates) and
then removed; an uninstalling directory or a backup-marker name is removed;
anything else is left untouched. -/
def cleanupLoop (prot : List String) : AppState → List String → Except PyErr Unit × AppState
  | s, [] => (.ok (), s)
  | s, nm :: rest =>
    if prot.contains nm then cleanupLoop prot s rest
    else
      match findEntry s nm with
      | none =>
        -- already removed during this sweep (e.g. a reclaimed bootstrap
        -- file): the classification tests are false for a missing path and
        -- `_try_remove` of a missing path is a silent no-op
        cleanupLoop prot s rest
      | some e =>
        if isVersionDirE e then
          match splitAppVersion e.name with
          | some (_, v, _) =>
            match uninstallVersion s v with
            | (.ok _, s1) => cleanupLoop prot (tryRemove s1 nm prot) rest
            | (.error .versionLockedError, s1) => cleanupLoop prot s1 rest
            | (.error err, s1) => (.error err, s1)
          | none => cleanupLoop prot s rest
        else if isUninstalledVersionDirE e then cleanupLoop prot (tryRemove s nm prot) rest
        else if oldMarker nm then cleanupLoop prot (tryRemove s nm prot) rest
        else cleanupLoop prot s rest

/-- First stage of `Esky.cleanup` (src/esky/__init__.py lines 352-360):
compare the best version with and without partial installs and finish a
partial install first.  Returns the resulting best version name.  With no
best version at all, `_version_manifest(None)` raises `TypeError` inside
`os.path.join`. -/
def cleanupStage1 (s : AppState) : Except PyErr String × AppState :=
  let best0 := getBestVersion s false
  let newv := getBestVersion s true
  if best0 = newv then
    match best0 with
    | some b => (.ok b, s)
    | none => (.error .typeError, s)
  else
    match newv with
    | some nv =>
      match splitAppVersion nv with
      | some (_, v, _) =>
        match installVersion s v with
        | (.ok _, s1) => (.ok nv, s1)
        | (.error err, s1) => (.error err, s1)
      | none => (.error .typeError, s)
    | none => (.error .typeError, s)

/-- Second stage of `Esky.cleanup` (src/esky/__init__.py lines 361-369):
if the best version has a pending `esky-overwrite/` directory, try to
finish the overwrites; an `EnvironmentError` only marks them for retry, but
any other exception — in particular the `NameError` from
`_perform_overwrites` — propagates. -/
def cleanupStage2 (s : AppState) (best : String) : Except PyErr Unit × AppState :=
  match findEntry s best with
  | none => (.ok (), s)
  | some e =>
    match e.overwriteFiles with
    | none => (.ok (), s)
    | some _ =>
      match performOverwrites s best with
      | (.ok _, s1) => (.ok (), s1)
      | (.error (.environmentError _), s1) => (.ok (), s1)
      | (.error err, s1) => (.error err, s1)

/-- `Esky.cleanup` (src/esky/__init__.py lines 341-405): finish partial
installs, handle pending overwrites, then build the protecting set — the
best version's manifest plus `"updates"`, `"locked"`, the best version's
directory name and, when set, `self.active_version` (NOTE: the source adds
the bare version string, not the active version's directory name) — and
sweep the directory listing.  The directory lock is modelled separately;
`version_finder.cleanup` is external. -/
def cleanup (s0 : AppState) : Except PyErr Unit × AppState :=
  match cleanupStage1 s0 with
  | (.error err, s) => (.error err, s)
  | (.ok best, s) =>
    match cleanupStage2 s best with
    | (.error err, s) => (.error err, s)
    | (.ok _, s) =>
      match versionManifest s best with
      | .error err => (.error err, s)
      | .ok m =>
        let prot0 := ssInsert (ssInsert (ssInsert m "updates") "locked") best
        let prot :=
          match s.activeVersion with
          | some av => ssInsert prot0 av
          | none => prot0
        cleanupLoop prot s (s.entries.map (fun e => e.name))

/-- `Esky.get_abspath` (src/esky/__init__.py lines 223-229): after choosing
the version-directory name, the return expression reads `oss.path.join` —
`oss` is an undefined name — so every call raises `NameError` instead of
returning a path. -/
def getAbspath (s : AppState) (relpath : String) : Except PyErr String :=
  let v :=
    match s.activeVersion with
    | some av => joinAppVersion s.name av s.platform
    | none => joinAppVersion s.name s.version s.platform
  let _unused := (v, relpath)
  .error .nameError

/-- Outcome of one fallible step of `auto_update`: success, an
`EnvironmentError` with the given errno, or any other exception. -/
inductive StepRes where
  | ok
  | envErr (errno : Nat)
  | exc
deriving DecidableEq, Repr

/-- Oracle environment for `Esky.auto_update`: what each step would do when
executed.  `update1`/`update2` are the first and the post-escalation run of
`_do_auto_update`, `cleanup1`/`cleanup2` likewise for `self.cleanup()`, and
`getRootUpdOk`/`getRootClnOk` whether the respective `get_root()` attempt
succeeds. -/
structure UpdEnv where
  hasFinder : Bool := true
  findResult : Option String := none
  alreadyRoot : Bool := false
  update1 : StepRes := .ok
  getRootUpdOk : Bool := true
  update2 : StepRes := .ok
  cleanup1 : StepRes := .ok
  getRootClnOk : Bool := true
  cleanup2 : StepRes := .ok
deriving DecidableEq, Repr

/-- Result of `auto_update` as observed by the caller. -/
inductive UpdOut where
  | success
  | noFinder
  | envE (errno : Nat)
  | exc
deriving DecidableEq, Repr

/-- Observable trace of an `auto_update` run: how often each guarded step
ran, how often `get_root()` was attempted, and whether `drop_root()` was
called on the way out. -/
structure UpdTrace where
  updateAttempts : Nat := 0
  cleanupAttempts : Nat := 0
  escalations : Nat := 0
  rootDropped : Bool := false
deriving DecidableEq, Repr

/-- Cleanup phase of `Esky.auto_update` (src/esky/__init__.py lines
502-520), entered with the escalation state of the update phase: run
`self.cleanup()`; on an `EnvironmentError` whose errno is `EACCES` while
`self.has_root()` is false, attempt `get_root()` once — a failure re-raises
the original error — and rerun `cleanup()`; the `finally` block drops root
iff it was acquired by this call. -/
def autoUpdateCleanupPhase (env : UpdEnv) (gotRoot : Bool) (ua esc : Nat) :
    UpdOut × UpdTrace :=
  match env.cleanup1 with
  | .ok => (.success, UpdTrace.mk ua 1 esc gotRoot)
  | .exc => (.exc, UpdTrace.mk ua 1 esc gotRoot)
  | .envErr n =>
    if n ≠ EACCES || (env.alreadyRoot || gotRoot) then
      (.envE n, UpdTrace.mk ua 1 esc gotRoot)
    else if ! env.getRootClnOk then
      (.envE n, UpdTrace.mk ua 1 (esc + 1) gotRoot)
    else
      match env.cleanup2 with
      | .ok => (.success, UpdTrace.mk ua 2 (esc + 1) true)
      | .envErr m => (.envE m, UpdTrace.mk ua 2 (esc + 1) true)
      | .exc => (.exc, UpdTrace.mk ua 2 (esc + 1) true)

/-- `Esky.auto_update` (src/esky/__init__.py lines 462-520): raise
`NoVersionFinderError` without a finder; if an update was found, run
`_do_auto_update`, and on an `EnvironmentError` whose errno is `EACCES`
while `self.has_root()` is false, attempt `get_root()` once — a failure
re-raises the original error — and rerun the step, surfacing a second
failure; then run the cleanup phase the same way; the `finally` block drops
root iff it was acquired by this call. -/
def autoUpdate (env : UpdEnv) : UpdOut × UpdTrace :=
  if ! env.hasFinder then (.noFinder, {}) else
  match env.findResult with
  | none => autoUpdateCleanupPhase env false 0 0
  | some _ =>
    match env.update1 with
    | .ok => autoUpdateCleanupPhase env false 1 0
    | .exc => (.exc, UpdTrace.mk 1 0 0 false)
    | .envErr n =>
      if n ≠ EACCES || env.alreadyRoot then
        (.envE n, UpdTrace.mk 1 0 0 false)
      else if ! env.getRootUpdOk then
        (.envE n, UpdTrace.mk 1 0 1 false)
      else
        match env.update2 with
        | .ok => autoUpdateCleanupPhase env true 2 1
        | .envErr m => (.envE m, UpdTrace.mk 2 0 1 true)
        | .exc => (.exc, UpdTrace.mk 2 0 1 true)

/-- A manifest line that the `assert`s of `_version_manifest` reject:
absolute after normalisation, or starting with `..`. -/
def badManifestLine (ln : String) : Bool :=
  let nm := normpath (pystrip ln)
  isabs nm || strStarts nm ".."

/-- The set C6 claims `_version_manifest` returns: the normalisations of
the non-empty lines only. -/
def claimedManifestSet (lines : List String) : List String :=
  (lines.filter (fun ln => ! decide (pystrip ln = ""))).map (fun ln => normpath (pystrip ln))

/-- The set `_version_manifest` actually accumulates on a manifest free of
rejected entries: the normalisation of every stripped line (a blank line
contributes `"."`, since `normpath "" = "."`). -/
def normalizedManifest (lines : List String) : List String :=
  lines.foldl (fun acc ln => ssInsert acc (normpath (pystrip ln))) []

/-- Scenario for C1: uninstalling version 1.0 with manifest `{a,b,c}` while
the newer version 1.1 (manifest `{b,d}`) is installed; all four bootstrap
files exist in the application directory. -/
def exC1 : AppState := { name := "app", entries := [
  { name := "app-1.0.plat", manifest := some ["a", "b", "c"] },
  { name := "app-1.1.plat", manifest := some ["b", "d"] },
  { name := "a" }, { name := "b" }, { name := "c" }, { name := "d" }] }

/-- Scenario for C2: like `exC1`, but version 1.0 is in use — another
process holds the exclusive lock on its `esky-lockfile.txt`. -/
def exC2 : AppState := { name := "app", entries := [
  { name := "app-1.0.plat", manifest := some ["a", "b", "c"], lockHeld := true },
  { name := "app-1.1.plat", manifest := some ["b", "d"] },
  { name := "a" }, { name := "b" }, { name := "c" }, { name := "d" }] }

/-- Scenario for C3: the process is executing version 1.0 (so
`active_version = "1.0"`), version 1.1 is best, and 1.0's lock file is not
held (e.g. the `Esky` was built from the executable path by a process that
does not hold the bootstrap lock). -/
def exC3 : AppState := { name := "app", activeVersion := some "1.0", version := "1.1", entries := [
    { name := "app-1.0.plat", manifest := some ["prog.exe"] },
    { name := "app-1.1.plat", manifest := some ["prog.exe"] },
    { name := "updates" }, { name := "locked" }, { name := "prog.exe" }] }

/-- Manifest entry with a blank line (file contents `"a\n\n"`). -/
def entC6 : Entry := { name := "app-1.0.plat", manifest := some ["a", ""] }

/-- Scenario for C6's blank-line behaviour. -/
def exC6 : AppState := { name := "app", entries := [entC6] }

/-- Manifest entry with an absolute path. -/
def entC6bad : Entry := { name := "app-1.0.plat", manifest := some ["lib.so", "/etc/passwd"] }

/-- Scenario for C6's fail-hard behaviour. -/
def exC6bad : AppState := { name := "app", entries := [entC6bad] }

/-- Scenario for C7: a bare application directory with a version finder
configured. -/
def exC7 : AppState := { name := "app", hasFinder := true }

/-- Scenario for C9: the best version has a pending `esky-overwrite/`
holding area containing one staged file. -/
def exC9 : AppState := { name := "app", entries := [
  { name := "app-1.0.plat", manifest := some ["prog.exe"], overwriteFiles := some ["prog.exe"] },
  { name := "updates" }, { name := "locked" }, { name := "prog.exe" }] }

/-- Scenario for C8: an update is available and both runs of the update
step fail with `EACCES`. -/
def envC8 : UpdEnv := { findResult := some "1.1", update1 := .envErr 13, update2 := .envErr 13 }

theorem versionManifestLines_err : ∀ (l : List String) (acc : List String),
    l.any badManifestLine = true →
    versionManifestLines l acc = .error .assertionError := by
  intro l
  induction l with
  | nil => intro acc h; simp at h
  | cons ln rest ih =>
    intro acc h
    rw [List.any_cons, Bool.or_eq_true] at h
    by_cases h1 : isabs (normpath (pystrip ln)) = true
    · simp [versionManifestLines, h1]
    · by_cases h2 : strStarts (normpath (pystrip ln)) ".." = true
      · simp [versionManifestLines, h2]
      · have hrest : rest.any badManifestLine = true := by
          rcases h with hh | hr
          · rw [badManifestLine] at hh
            simp only [Bool.or_eq_true] at hh
            rcases hh with hh | hh
            · exact absurd hh h1
            · exact absurd hh h2
          · exact hr
        simp only [versionManifestLines]
        rw [if_neg (by simp [h1]), if_neg (by simp [h2])]
        exact ih _ hrest

theorem versionManifestLines_ok : ∀ (l : List String) (acc : List String),
    l.all (fun ln => ! badManifestLine ln) = true →
    versionManifestLines l acc =
      .ok (l.foldl (fun a ln => ssInsert a (normpath (pystrip ln))) acc) := by
  intro l
  induction l with
  | nil => intro acc _; rfl
  | cons ln rest ih =>
    intro acc h
    rw [List.all_cons, Bool.and_eq_true] at h
    obtain ⟨hh, hrest⟩ := h
    rw [badManifestLine] at hh
    simp only [Bool.not_eq_true', Bool.or_eq_false_iff] at hh
    obtain ⟨h1, h2⟩ := hh
    simp only [versionManifestLines, List.foldl_cons]
    rw [if_neg (by simp [h1]), if_neg (by simp [h2])]
    exact ih _ hrest

/-- C6: a manifest entry that normalises to an absolute path or to a path
beginning with `..` makes the whole load of `esky-bootstrap.txt` raise
(`AssertionError`), and a manifest free of such entries loads to exactly
the set of normalisations of its stripped lines — where a blank line
contributes the entry `"."`, because `os.path.normpath("") == "."`. -/
theorem thmC6 : ∀ (s : AppState) (vdir : String) (e : Entry) (lines : List String),
    findEntry s vdir = some e → e.manifest = some lines →
    ((lines.any badManifestLine = true →
        versionManifest s vdir = .error .assertionError) ∧
      (lines.all (fun ln => ! badManifestLine ln) = true →
        versionManifest s vdir = .ok (normalizedManifest lines))) := by
  intro s vdir e lines hfind hman
  constructor
  · intro hbad
    simp only [versionManifest, hfind, hman]
    exact versionManifestLines_err lines [] hbad
  · intro hgood
    simp only [versionManifest, hfind, hman]
    rw [versionManifestLines_ok lines [] hgood]
    rfl

theorem thmC6_witness :
    versionManifest exC6bad "app-1.0.plat" = .error .assertionError ∧
    versionManifest exC6 "app-1.0.plat" = .ok (normalizedManifest ["a", ""]) :=
  ⟨(thmC6 exC6bad "app-1.0.plat" entC6bad ["lib.so", "/etc/passwd"]
      (by decide) (by decide)).1 (by decide),
    (thmC6 exC6 "app-1.0.plat" entC6 ["a", ""] (by decide) (by decide)).2 (by decide)⟩

/-- C6, counterexample to the claim as stated: on the manifest with lines
`["a", ""]` (file contents `"a\n\n"`) the load succeeds and returns the set
`{"a", "."}`, which is not the set of normalised non-empty lines `{"a"}` —
the blank line was neither rejected nor skipped but became `"."`. -/
theorem cexC6 :
    versionManifest exC6 "app-1.0.plat" = .ok ["a", "."] ∧
    claimedManifestSet ["a", ""] = ["a"] ∧
    ("." ∈ ["a", "."]) ∧ ¬ ("." ∈ ["a"]) := by decide

theorem keepFoldM_eq (s : AppState) (tn : String) (pv : List Nat) :
    ∀ (l : List Entry) (acc : List String),
      (l.all fun e => ! keepsFor s tn pv e || isOkB (versionManifest s e.name)) = true →
      keepFoldM s tn pv l acc = .ok (keepSetFrom s tn pv acc l) := by
  intro l
  induction l with
  | nil => intro acc _; rfl
  | cons e rest ih =>
    intro acc hall
    rw [List.all_cons, Bool.and_eq_true] at hall
    obtain ⟨hhead, hrest⟩ := hall
    have hKSf : keepsFor s tn pv e = false →
        ∀ b, keepSetFrom s tn pv b (e :: rest) = keepSetFrom s tn pv b rest := by
      intro hq b; simp [keepSetFrom, hq]
    have hKSt : keepsFor s tn pv e = true →
        ∀ b, keepSetFrom s tn pv b (e :: rest) =
          keepSetFrom s tn pv (ssUnion b (manifestD s e.name)) rest := by
      intro hq b; simp [keepSetFrom, hq]
    by_cases hname : e.name = tn
    · have hq : keepsFor s tn pv e = false := by simp [keepsFor, hname]
      rw [hKSf hq]
      simp only [keepFoldM, if_pos hname]
      exact ih acc hrest
    · rcases hsplit : splitAppVersion e.name with _ | ⟨app, ver, plat⟩
      · have hq : keepsFor s tn pv e = false := by simp [keepsFor, hsplit]
        rw [hKSf hq]
        simp only [keepFoldM, if_neg hname, hsplit]
        exact ih acc hrest
      · by_cases happ : app = s.name
        · by_cases hver : verLt (parseVersion ver) pv = true
          · have hq : keepsFor s tn pv e = false := by
              simp [keepsFor, hsplit, happ, hver]
            rw [hKSf hq]
            simp only [keepFoldM, if_neg hname, hsplit]
            rw [if_neg (fun hcon => hcon happ), if_pos hver]
            exact ih acc hrest
          · have hq : keepsFor s tn pv e = true := by
              simp [keepsFor, hname, hsplit, happ, hver]
            rcases hm : versionManifest s e.name with err | m
            · rw [hq] at hhead
              rw [hm] at hhead
              simp [isOkB] at hhead
            · rw [hKSt hq]
              have hd : manifestD s e.name = m := by simp [manifestD, hm]
              rw [hd]
              simp only [keepFoldM, if_neg hname, hsplit, hm]
              rw [if_neg (fun hcon => hcon happ), if_neg hver]
              exact ih _ hrest
        · have hq : keepsFor s tn pv e = false := by
            simp [keepsFor, hsplit, happ]
          rw [hKSf hq]
          simp only [keepFoldM, if_neg hname, hsplit]
          rw [if_pos happ]
          exact ih acc hrest

/-- C1: for every state whose manifest loads succeed, the set of bootstrap
files `_cleanup_bootstrap_env` removes equals the set difference of the
target version's manifest and the union of the manifests of every other
same-application entry whose parsed version is greater than or equal
(strictly older versions never qualify, by definition of `keepsFor`),
restricted to files that exist; and on the concrete scenario with target
manifest `{a,b,c}` and equal-or-newer union `{b,d}` the removable set is
exactly `{a,c}`. -/
theorem thmC1 :
    (∀ (s : AppState) (version : String), loadsOk s version = true →
      cleanupBootstrapEnv s version = .ok (specRemovable s version)) ∧
    cleanupBootstrapEnv exC1 "1.0" = .ok ["a", "c"] := by
  constructor
  · intro s version h
    rw [loadsOk, Bool.and_eq_true] at h
    obtain ⟨h1, h2⟩ := h
    rw [cleanupBootstrapEnv, keepFoldM_eq s _ _ s.entries [] h1]
    rcases hm : versionManifest s (joinAppVersion s.name version s.platform) with err | tm
    · rw [hm] at h2; simp [isOkB] at h2
    · simp only []
      simp [specRemovable, manifestD, hm, keepSet]
  · decide

theorem thmC1_witness :
    loadsOk exC1 "1.0" = true ∧
    cleanupBootstrapEnv exC1 "1.0" = .ok (specRemovable exC1 "1.0") :=
  ⟨by decide, thmC1.1 exC1 "1.0" (by decide)⟩

/-- C10: `Esky.get_abspath` evaluates `oss.path.join` where `oss` is an
undefined name, so every call raises `NameError` and the documented
behaviour of returning an absolute path is unreachable. -/
theorem thmC10 : ∀ (s : AppState) (relpath : String),
    getAbspath s relpath = .error .nameError := by
  intro s relpath
  rfl

/-- C2, counterexample to the claim as stated: uninstalling in-use version
1.0 (its `esky-lockfile.txt` exclusively locked elsewhere) does fail with
`VersionLockedError`, but the reclaimable files `a` and `c` — belonging
only to version 1.0 — have already been removed by the committed reclaim
transaction, which runs before the in-use check and is not rolled back. -/
theorem cexC2 : (uninstallVersion exC2 "1.0").1 = .error .versionLockedError ∧
    existsPath exC2 "a" = true ∧ existsPath exC2 "c" = true ∧
    existsPath (uninstallVersion exC2 "1.0").2 "a" = false ∧
    existsPath (uninstallVersion exC2 "1.0").2 "c" = false := by decide

/-- C2, amended: when the target version directory exists, its lock file
exists and is exclusively held elsewhere, the path guard passes and the
reclaim computation succeeds, `uninstall_version` fails with
`VersionLockedError` — but only after the reclaimable files have been
removed by the committed transaction (the source tests the version lock
only after `trn.commit()`, and partial reclaim is deliberately not rolled
back). -/
theorem thmC2 : ∀ (s : AppState) (version : String) (e : Entry) (rem : List String),
    findEntry s (joinAppVersion s.name version s.platform) = some e →
    e.lockHeld = true → e.hasLockfile = true →
    dirname (pjoin s.appdir (joinAppVersion s.name version s.platform)) = s.appdir →
    cleanupBootstrapEnv s version = .ok rem →
    uninstallVersion s version = (.error .versionLockedError, applyRemoves s rem) := by
  intro s version e rem hfind hlock hlf hguard hclean
  simp only [uninstallVersion, hfind, hclean, hguard, hlock, hlf]
  simp

theorem thmC2_witness :
    uninstallVersion exC2 "1.0" = (.error .versionLockedError, applyRemoves exC2 ["a", "c"]) :=
  thmC2 exC2 "1.0"
    { name := "app-1.0.plat", manifest := some ["a", "b", "c"], lockHeld := true }
    ["a", "c"] (by decide) (by decide) (by decide) (by decide) (by decide)

/-- C3: in the scenario `exC3` the process is executing version 1.0 while
1.1 is best, and `cleanup()` deletes the active version's directory: the
source adds the bare string `self.active_version` (`"1.0"`) to the
protecting set instead of the directory name `app-1.0.plat`, so the sweep
uninstalls and removes the active version's directory (the best version,
`updates/` and `locked/` are preserved, as claimed). -/
theorem thmC3 : exC3.activeVersion = some "1.0" ∧
    existsPath exC3 "app-1.0.plat" = true ∧
    (cleanup exC3).1 = .ok () ∧
    existsPath (cleanup exC3).2 "app-1.0.plat" = false ∧
    existsPath (cleanup exC3).2 "app-1.1.plat" = true ∧
    existsPath (cleanup exC3).2 "updates" = true ∧
    existsPath (cleanup exC3).2 "locked" = true := by decide

/-- C7: whenever the encoded target directory name does not resolve
directly inside the application directory (its parent is not the
application directory — e.g. the version string contains a path
separator), `fetch_version`, `install_version` and `uninstall_version` all
fail with `AssertionError` and leave the state untouched; each runs this
guard before any filesystem operation. -/
theorem thmC7 : ∀ (s : AppState) (version : String),
    dirname (pjoin s.appdir (joinAppVersion s.name version s.platform)) ≠ s.appdir →
    (s.hasFinder = true → fetchVersion s version = (.error .assertionError, s)) ∧
    installVersion s version = (.error .assertionError, s) ∧
    uninstallVersion s version = (.error .assertionError, s) := by
  intro s version h
  refine ⟨fun hf => ?_, ?_, ?_⟩
  · simp [fetchVersion, hf, h]
  · simp [installVersion, h]
  · simp [uninstallVersion, h]

theorem thmC7_witness :
    dirname (pjoin exC7.appdir (joinAppVersion exC7.name "1.0/evil" exC7.platform)) ≠ exC7.appdir ∧
    fetchVersion exC7 "1.0/evil" = (.error .assertionError, exC7) ∧
    installVersion exC7 "1.0/evil" = (.error .assertionError, exC7) ∧
    uninstallVersion exC7 "1.0/evil" = (.error .assertionError, exC7) :=
  ⟨by decide, (thmC7 exC7 "1.0/evil" (by decide)).1 (by decide),
    (thmC7 exC7 "1.0/evil" (by decide)).2.1, (thmC7 exC7 "1.0/evil" (by decide)).2.2⟩

/-- C9: with a pending `esky-overwrite/` holding area containing a staged
file in the best version's directory, `cleanup()` raises `NameError` — the
body of `_perform_overwrites` reads the undefined names
`oversrc`/`overdir` — and since `NameError` is not an `EnvironmentError`,
the mark-for-retry handler does not catch it and `cleanup` itself
raises. -/
theorem thmC9 :
    ((findEntry exC9 "app-1.0.plat").map (fun e => e.overwriteFiles)) =
      some (some ["prog.exe"]) ∧
    (cleanup exC9).1 = .error .nameError := by decide

/-- C4: for one owner starting unlocked, `lock(); lock(); unlock(); unlock()`
returns the directory to the unlocked state: the first `lock` creates
`locked/` with the owner's marker and count 1; the second only bumps the
count and refreshes the marker's mtime (the directory and its mtime are
unchanged); the first `unlock` only decrements; the second removes the
marker and the directory, count 0.  Meanwhile a distinct owner's `lock`
against the fresh lock fails with `EskyLockedError` and changes nothing. -/
theorem thmC4 : ∀ (myid other : String) (t1 t2 timeout : Nat),
    myid ≠ other → t2 ≤ t1 + timeout →
    lockAcquire ⟨false, 0, [], 0⟩ myid t1 timeout 0 =
      (.ok (), ⟨true, t1, [(myid, t1)], 1⟩) ∧
    lockAcquire ⟨true, t1, [(myid, t1)], 1⟩ myid t2 timeout 0 =
      (.ok (), ⟨true, t1, [(myid, t2)], 2⟩) ∧
    lockRelease ⟨true, t1, [(myid, t2)], 2⟩ myid =
      (.ok (), ⟨true, t1, [(myid, t2)], 1⟩) ∧
    lockRelease ⟨true, t1, [(myid, t2)], 1⟩ myid =
      (.ok (), ⟨false, t1, [], 0⟩) ∧
    lockAcquire ⟨true, t1, [(myid, t1)], 1⟩ other t2 timeout 0 =
      (.error .eskyLockedError, ⟨true, t1, [(myid, t1)], 1⟩) := by
  intro myid other t1 t2 timeout hne hfresh
  refine ⟨rfl, ?_, rfl, ?_, ?_⟩
  · show lockGo myid t2 timeout (5 + 1) ⟨true, t1, [(myid, t1)], 1⟩ = _
    simp [lockGo, markerExists, refreshMarker]
  · simp [lockRelease, markerExists]
  · have h1 : markerExists ⟨true, t1, [(myid, t1)], 1⟩ other = false := by
      simp [markerExists]
      exact hne
    have h2 : newestMtime ⟨true, t1, [(myid, t1)], 1⟩ = t1 := by
      simp [newestMtime]
    show lockGo other t2 timeout (5 + 1) ⟨true, t1, [(myid, t1)], 1⟩ = _
    simp [lockGo, h1, h2, Nat.not_lt.mpr hfresh]

theorem thmC4_witness :
    lockAcquire ⟨false, 0, [], 0⟩ "a-1-1" 100 3600 0 =
      (.ok (), ⟨true, 100, [("a-1-1", 100)], 1⟩) ∧
    lockAcquire ⟨true, 100, [("a-1-1", 100)], 1⟩ "a-1-1" 200 3600 0 =
      (.ok (), ⟨true, 100, [("a-1-1", 200)], 2⟩) ∧
    lockRelease ⟨true, 100, [("a-1-1", 200)], 2⟩ "a-1-1" =
      (.ok (), ⟨true, 100, [("a-1-1", 200)], 1⟩) ∧
    lockRelease ⟨true, 100, [("a-1-1", 200)], 1⟩ "a-1-1" =
      (.ok (), ⟨false, 100, [], 0⟩) ∧
    lockAcquire ⟨true, 100, [("a-1-1", 100)], 1⟩ "b-2-2" 200 3600 0 =
      (.error .eskyLockedError, ⟨true, 100, [("a-1-1", 100)], 1⟩) :=
  thmC4 "a-1-1" "b-2-2" 100 200 3600 (by decide) (by decide)

/-- C5, counterexample to the claim as stated: every lock *marker* is older
than the staleness threshold (mtime 0, threshold 3600, now 10000), so by
the claim the lock must be broken and acquisition retried — but the source
also folds the mtime of the `locked/` directory itself (here fresh, 10000)
into the staleness computation, so `lock` raises `EskyLockedError`
instead. -/
theorem cexC5 :
    ((⟨true, 10000, [("other", 0)], 0⟩ : LockState).markers.all
      (fun m => m.2 + 3600 < 10000)) = true ∧
    (⟨true, 10000, [("other", 0)], 0⟩ : LockState).markers ≠ [] ∧
    lockAcquire ⟨true, 10000, [("other", 0)], 0⟩ "me" 10000 3600 0 =
      (.error .eskyLockedError, ⟨true, 10000, [("other", 0)], 0⟩) := by decide

theorem lockGo_create (myid : String) (now timeout : Nat) :
    ∀ (fuel : Nat) (st : LockState), markerExists st myid = false →
      st.dirExists = false →
      lockGo myid now timeout (fuel + 1) st =
        (.ok (), ⟨true, now, [(myid, now)], 1⟩) := by
  intro fuel st hmk hdir
  simp [lockGo, hmk, hdir]

/-- C5, amended: when another owner holds `locked/`, staleness is judged on
the newest mtime among the `locked/` directory *itself* and all its
markers.  If that newest mtime is older than the threshold, the whole
directory is forcibly removed and acquisition retried (succeeding with a
fresh lock); if it is within the threshold, the call fails immediately with
`EskyLockedError` and the existing lock is untouched; and once the retry
budget is exhausted (`num_retries > 5`) the call fails with
`EskyLockedError` regardless. -/
theorem thmC5 :
    (∀ (st : LockState) (myid : String) (now timeout : Nat),
      markerExists st myid = false → st.dirExists = true →
      newestMtime st + timeout < now →
      lockAcquire st myid now timeout 0 =
        (.ok (), ⟨true, now, [(myid, now)], 1⟩)) ∧
    (∀ (st : LockState) (myid : String) (now timeout r : Nat),
      markerExists st myid = false → st.dirExists = true →
      ¬ (newestMtime st + timeout < now) →
      lockAcquire st myid now timeout r = (.error .eskyLockedError, st)) ∧
    (∀ (st : LockState) (myid : String) (now timeout r : Nat), r > 5 →
      lockAcquire st myid now timeout r = (.error .eskyLockedError, st)) := by
  refine ⟨?_, ?_, ?_⟩
  · intro st myid now timeout hmk hdir hstale
    show lockGo myid now timeout (5 + 1) st = _
    simp only [lockGo, hmk, hdir]
    simp only [Bool.false_eq_true, if_false, Bool.not_true, if_pos hstale]
    exact lockGo_create myid now timeout 4
      { st with dirExists := false, markers := [] } (by simp [markerExists]) rfl
  · intro st myid now timeout r hmk hdir hfresh
    show lockGo myid now timeout (6 - r) st = _
    rcases h6 : 6 - r with _ | f
    · rfl
    · simp [lockGo, hmk, hdir, hfresh]
  · intro st myid now timeout r hr
    show lockGo myid now timeout (6 - r) st = _
    have h6 : 6 - r = 0 := by omega
    rw [h6]
    rfl

theorem thmC5_witness :
    lockAcquire ⟨true, 0, [("other", 0)], 0⟩ "me" 10000 3600 0 =
      (.ok (), ⟨true, 10000, [("me", 10000)], 1⟩) ∧
    lockAcquire ⟨true, 9000, [("other", 9000)], 0⟩ "me" 10000 3600 0 =
      (.error .eskyLockedError, ⟨true, 9000, [("other", 9000)], 0⟩) ∧
    lockAcquire ⟨false, 0, [], 0⟩ "me" 0 0 6 =
      (.error .eskyLockedError, ⟨false, 0, [], 0⟩) :=
  ⟨thmC5.1 ⟨true, 0, [("other", 0)], 0⟩ "me" 10000 3600 (by decide) rfl (by decide),
    thmC5.2.1 ⟨true, 9000, [("other", 9000)], 0⟩ "me" 10000 3600 0
      (by decide) rfl (by decide),
    thmC5.2.2 ⟨false, 0, [], 0⟩ "me" 0 0 6 (by decide)⟩

theorem cpTrue (env : UpdEnv) (ua esc : Nat) :
    (autoUpdateCleanupPhase env true ua esc).2.escalations = esc ∧
    (autoUpdateCleanupPhase env true ua esc).2.rootDropped = true ∧
    (autoUpdateCleanupPhase env true ua esc).2.updateAttempts = ua := by
  cases hc : env.cleanup1 <;> simp [autoUpdateCleanupPhase, hc]

theorem cpEscLe (env : UpdEnv) (ua esc : Nat) (h : env.alreadyRoot = false) :
    (autoUpdateCleanupPhase env false ua esc).2.escalations ≤ esc + 1 := by
  cases hc : env.cleanup1 with
  | ok => simp [autoUpdateCleanupPhase, hc]
  | exc => simp [autoUpdateCleanupPhase, hc]
  | envErr n =>
    simp only [autoUpdateCleanupPhase, hc, h]
    split
    · exact Nat.le_succ esc
    · split
      · exact Nat.le_refl (esc + 1)
      · split <;> exact Nat.le_refl (esc + 1)

/-- C8: without root, `auto_update` attempts `get_root()` at most once
overall; when the update step fails with `EACCES`, a successful escalation
reruns the step exactly once (two attempts, one escalation) and the
acquired root is dropped on exit, a failed escalation re-raises the
original `EACCES` error without a retry, and a failure of the rerun is
surfaced as that second error; the cleanup step behaves the same way. -/
theorem thmC8 : ∀ env : UpdEnv, env.alreadyRoot = false →
    ((autoUpdate env).2.escalations ≤ 1) ∧
    (env.hasFinder = true → env.findResult.isSome = true →
      env.update1 = .envErr EACCES →
      ((env.getRootUpdOk = true → (autoUpdate env).2.updateAttempts = 2 ∧
          (autoUpdate env).2.escalations = 1 ∧
          (autoUpdate env).2.rootDropped = true) ∧
        (env.getRootUpdOk = false →
          autoUpdate env = (.envE EACCES, ⟨1, 0, 1, false⟩)) ∧
        (∀ m, env.getRootUpdOk = true → env.update2 = .envErr m →
          autoUpdate env = (.envE m, ⟨2, 0, 1, true⟩)))) ∧
    (env.hasFinder = true → (env.findResult = none ∨ env.update1 = .ok) →
      env.cleanup1 = .envErr EACCES →
      ((env.getRootClnOk = true → (autoUpdate env).2.cleanupAttempts = 2 ∧
          (autoUpdate env).2.escalations = 1 ∧
          (autoUpdate env).2.rootDropped = true) ∧
        (env.getRootClnOk = false → (autoUpdate env).1 = .envE EACCES ∧
          (autoUpdate env).2.escalations = 1 ∧
          (autoUpdate env).2.rootDropped = false))) := by
  intro env hroot
  refine ⟨?_, ?_, ?_⟩
  · rcases hhf : env.hasFinder with _ | _
    · simp [autoUpdate, hhf]
    · rcases hfr : env.findResult with _ | v
      · simp only [autoUpdate, hhf, hfr, Bool.not_true, Bool.false_eq_true, if_false]
        exact cpEscLe env 0 0 hroot
      · rcases hu1 : env.update1 with _ | n | _
        · simp only [autoUpdate, hhf, hfr, hu1, Bool.not_true, Bool.false_eq_true, if_false]
          exact cpEscLe env 1 0 hroot
        · by_cases hn : n = EACCES
          · subst hn
            rcases hg : env.getRootUpdOk with _ | _
            · simp [autoUpdate, hhf, hfr, hu1, hroot, hg, EACCES]
            · rcases hu2 : env.update2 with _ | m | _
              · simp only [autoUpdate, hhf, hfr, hu1, hroot, hg, hu2, EACCES]
                simp
                exact le_of_eq (cpTrue env 2 1).1
              · simp [autoUpdate, hhf, hfr, hu1, hroot, hg, hu2, EACCES]
              · simp [autoUpdate, hhf, hfr, hu1, hroot, hg, hu2, EACCES]
          · simp [autoUpdate, hhf, hfr, hu1, hroot, hn]
        · simp [autoUpdate, hhf, hfr, hu1]
  · intro hhf hsome hu1
    rcases Option.isSome_iff_exists.mp hsome with ⟨v, hfr⟩
    refine ⟨?_, ?_, ?_⟩
    · intro hg
      rcases hu2 : env.update2 with _ | m | _
      · have h := cpTrue env 2 1
        simp only [autoUpdate, hhf, hfr, hu1, hroot, hg, hu2, EACCES]
        simp
        exact ⟨h.2.2, h.1, h.2.1⟩
      · simp [autoUpdate, hhf, hfr, hu1, hroot, hg, hu2, EACCES]
      · simp [autoUpdate, hhf, hfr, hu1, hroot, hg, hu2, EACCES]
    · intro hg
      simp [autoUpdate, hhf, hfr, hu1, hroot, hg, EACCES]
    · intro m hg hu2
      simp [autoUpdate, hhf, hfr, hu1, hroot, hg, hu2, EACCES]
  · intro hhf hpre hc1
    have key : ∀ ua, ((env.getRootClnOk = true →
        (autoUpdateCleanupPhase env false ua 0).2.cleanupAttempts = 2 ∧
        (autoUpdateCleanupPhase env false ua 0).2.escalations = 1 ∧
        (autoUpdateCleanupPhase env false ua 0).2.rootDropped = true) ∧
      (env.getRootClnOk = false →
        (autoUpdateCleanupPhase env false ua 0).1 = .envE EACCES ∧
        (autoUpdateCleanupPhase env false ua 0).2.escalations = 1 ∧
        (autoUpdateCleanupPhase env false ua 0).2.rootDropped = false)) := by
      intro ua
      constructor
      · intro hg
        rcases hc2 : env.cleanup2 with _ | m | _ <;>
          simp [autoUpdateCleanupPhase, hc1, hroot, hg, hc2, EACCES]
      · intro hg
        simp [autoUpdateCleanupPhase, hc1, hroot, hg, EACCES]
    rcases hpre with hfr | hu1
    · have hred : autoUpdate env = autoUpdateCleanupPhase env false 0 0 := by
        simp [autoUpdate, hhf, hfr]
      rw [hred]
      exact key 0
    · rcases hfr : env.findResult with _ | v
      · have hred : autoUpdate env = autoUpdateCleanupPhase env false 0 0 := by
          simp [autoUpdate, hhf, hfr]
        rw [hred]
        exact key 0
      · have hred : autoUpdate env = autoUpdateCleanupPhase env false 1 0 := by
          simp [autoUpdate, hhf, hfr, hu1]
        rw [hred]
        exact key 1

theorem thmC8_witness :
    (autoUpdate envC8).2.escalations ≤ 1 ∧
    autoUpdate envC8 = (.envE 13, ⟨2, 0, 1, true⟩) :=
  ⟨(thmC8 envC8 rfl).1, ((thmC8 envC8 rfl).2.1 rfl rfl rfl).2.2 13 rfl rfl⟩

end Esky
